import Mathlib

/-!
Shallow embedding of the `ticosax/csa-share-management` repository
(`src/solawi/api.py`, `src/solawi/old_app.py`, `src/solawi/app.py`) and proofs
about the claims of its specification.

The JSON request-validation layer models the pydantic v1 schemas declared in
`api.py`: each schema is a list of field specifications plus its
extra-fields policy (`Extra.forbid` versus the default, which silently
ignores unrecognized keys).  Pydantic's lenient type coercions (for example
numeric strings accepted for `int` fields) are not modelled; none of the
claims exercises them, and every theorem that depends on successful
validation takes the successful parse as a hypothesis.
-/

/-- A JSON scalar value as it appears in a request payload. -/
inductive JsonVal where
  | str (s : String)
  | int (n : Int)
  | bool (b : Bool)
  | null
deriving DecidableEq, Repr

/-- A JSON object payload: a list of key/value pairs. -/
abbrev Payload := List (String × JsonVal)

/-- Declared type of a pydantic field, as far as the claims need it. -/
inductive FieldType where
  | tStr
  | tStrMin (n : Nat)
  | tInt
  | tBool
  | tDecimal
  | tDate
deriving DecidableEq, Repr

/-- Whether a JSON value satisfies a declared field type. -/
def valMatches : FieldType → JsonVal → Bool
  | .tStr, .str _ => true
  | .tStrMin n, .str s => decide (n ≤ s.length)
  | .tInt, .int _ => true
  | .tBool, .bool _ => true
  | .tDecimal, .int _ => true
  | .tDate, .str _ => true
  | _, _ => false

/-- One declared field of a pydantic model: its name, whether it is
required (`Optional[...]` fields are not), and its type. -/
structure FieldSpec where
  name : String
  required : Bool
  ty : FieldType
deriving DecidableEq, Repr

/-- A pydantic model declaration: its fields and whether the model was
declared with `extra=Extra.forbid`. -/
structure Schema where
  fields : List FieldSpec
  forbidExtra : Bool
deriving DecidableEq, Repr

/-- First value stored under key `k`, like a Python dict lookup. -/
def lookupField (p : Payload) (k : String) : Option JsonVal :=
  (List.find? (fun kv => kv.1 == k) p).map (fun kv => kv.2)

/-- Parse a single declared field from the payload.  A missing or null
optional field parses to `null` (pydantic's `None`); a missing or null
required field is an error. -/
def parseField (p : Payload) (f : FieldSpec) : Option JsonVal :=
  match lookupField p f.name with
  | none => if f.required then none else some .null
  | some v =>
      if valMatches f.ty v then some v
      else if v == .null && !f.required then some .null
      else none

/-- Parse every declared field in order; fail if any single field fails. -/
def parseFields (p : Payload) : List FieldSpec → Option Payload
  | [] => some []
  | f :: fs =>
      match parseField p f, parseFields p fs with
      | some v, some tl => some ((f.name, v) :: tl)
      | _, _ => none

/-- Does the schema declare a field of this name? -/
def schemaHasKey (s : Schema) (k : String) : Bool :=
  s.fields.any (fun f => f.name == k)

/-- Does the payload carry a key the schema does not declare? -/
def hasExtraField (s : Schema) (p : Payload) : Bool :=
  p.any (fun kv => !(schemaHasKey s kv.1))

/-- Validate a payload against a schema.  With `Extra.forbid`, any
unrecognized key rejects the whole payload; otherwise unrecognized keys are
silently ignored and the declared fields are parsed. -/
def validateBody (s : Schema) (p : Payload) : Option Payload :=
  if s.forbidExtra && hasExtraField s p then none
  else parseFields p s.fields

/-- Source `class LoginSchema(BaseModel)` — `email`, `password`; default extra policy. -/
def LoginSchema : Schema :=
  { fields := [⟨"email", true, .tStr⟩, ⟨"password", true, .tStr⟩],
    forbidExtra := false }

/-- Source `class MemberSchema(BaseModel, extra=Extra.forbid)`. -/
def MemberSchema : Schema :=
  { fields := [⟨"name", true, .tStr⟩, ⟨"share_id", false, .tInt⟩,
               ⟨"email", false, .tStr⟩, ⟨"phone", false, .tStr⟩],
    forbidExtra := true }

/-- Source `class MemberPatchSchema(MemberSchema)` — `name` becomes optional;
inherits `Extra.forbid`. -/
def MemberPatchSchema : Schema :=
  { fields := [⟨"name", false, .tStr⟩, ⟨"share_id", false, .tInt⟩,
               ⟨"email", false, .tStr⟩, ⟨"phone", false, .tStr⟩],
    forbidExtra := true }

/-- Source `class BetSchema(BaseModel, extra=Extra.forbid)`. -/
def BetSchema : Schema :=
  { fields := [⟨"value", true, .tDecimal⟩, ⟨"start_date", true, .tDate⟩,
               ⟨"end_date", false, .tDate⟩],
    forbidExtra := true }

/-- Source `class SharePatchSchema(BaseModel, extra=Extra.forbid)`. -/
def SharePatchSchema : Schema :=
  { fields := [⟨"note", false, .tStr⟩, ⟨"archived", false, .tBool⟩],
    forbidExtra := true }

/-- Source `class ShareSchema(BaseModel)` — default extra policy. -/
def ShareSchema : Schema :=
  { fields := [⟨"id", true, .tStr⟩, ⟨"station_id", true, .tInt⟩,
               ⟨"note", false, .tStr⟩, ⟨"archived", false, .tBool⟩],
    forbidExtra := false }

/-- Source `class DepositPatchSchema(BaseModel, extra=Extra.forbid)`. -/
def DepositPatchSchema : Schema :=
  { fields := [⟨"ignore", false, .tBool⟩, ⟨"is_security", false, .tBool⟩],
    forbidExtra := true }

/-- Source `class DepositSchema(DepositPatchSchema)` — inherits `Extra.forbid`. -/
def DepositSchema : Schema :=
  { fields := [⟨"ignore", false, .tBool⟩, ⟨"is_security", false, .tBool⟩,
               ⟨"amount", true, .tStr⟩, ⟨"timestamp", true, .tStr⟩,
               ⟨"title", true, .tStr⟩, ⟨"person_id", true, .tInt⟩],
    forbidExtra := true }

/-- Source `class MergeSharesSchema(BaseModel)` — default extra policy. -/
def MergeSharesSchema : Schema :=
  { fields := [⟨"share1", true, .tInt⟩, ⟨"share2", true, .tInt⟩],
    forbidExtra := false }

/-- Source `class PatchUserModel(BaseModel)` — `password: constr(min_length=14)`;
default extra policy. -/
def PatchUserModel : Schema :=
  { fields := [⟨"password", true, .tStrMin 14⟩],
    forbidExtra := false }

/-- The fields of the GET /api/v1/shares/id response that `shares_details`
computes (api.py lines 172-182).  `expected_today` and `total_deposits` are
properties of the share computed in `models.py` (absent from `src/`), so they
are taken here as inputs; `total_deposits` is `None` when the share has no
deposits, and the handler replaces a missing value by 0 via `or 0`. -/
structure ShareDetailFields where
  expected_today : Rat
  total_deposits : Rat
  difference_today : Rat
deriving DecidableEq, Repr

/-- Handler `shares_details` (api.py): `total_deposits = share.total_deposits or 0`;
`difference_today = -(Decimal(expected_today) - total_deposits)`. -/
def shares_details (expected_today : Rat) (total_deposits : Option Rat) : ShareDetailFields :=
  let td := total_deposits.getD 0
  { expected_today := expected_today,
    total_deposits := td,
    difference_today := -(expected_today - td) }

/-- Per-share entry of `Share.get_deposit_map()` (computed in `models.py`,
absent from `src/`; taken as input by `get_payment_list`). -/
structure DepositDetails where
  total_deposits : Rat
  number_of_deposits : Nat
deriving DecidableEq, Repr

/-- The per-share payment fields of the GET /api/v1/shares/payment_status
response built by `get_payment_list` (api.py lines 134-162). -/
structure SharePaymentsRow where
  total_deposits : Rat
  number_of_deposits : Nat
  expected_today : Rat
  difference_today : Rat
deriving DecidableEq, Repr

/-- One row of `get_payment_list` (api.py): missing deposit-map and
expected-amount-map entries default to 0, and
`difference_today = total_deposits - expected_today`. -/
def share_payments (deposit_details : Option DepositDetails) (expected : Option Rat) :
    SharePaymentsRow :=
  let td := (deposit_details.map (fun d => d.total_deposits)).getD 0
  let nd := (deposit_details.map (fun d => d.number_of_deposits)).getD 0
  let et := expected.getD 0
  { total_deposits := td, number_of_deposits := nd, expected_today := et,
    difference_today := td - et }

/-- A staff account (`User` in `models.py`): `password_changed_at` is absent
until the holder sets their own password; `login_required` treats a missing
value as Python-falsy. -/
structure User where
  id : Int
  email : String
  password_changed_at : Option String := none
deriving DecidableEq, Repr

/-- The authentication context of one API request: whether the bearer token
passes `verify_jwt_in_request`, and the `User` its subject resolves to. -/
structure AuthRequest where
  tokenValid : Bool
  user : User
deriving DecidableEq, Repr

/-- Outcome of dispatching a request through an endpoint's decorators. -/
inductive Outcome where
  /-- All decorators passed and the endpoint's handler logic ran. -/
  | handlerRun
  /-- Decorator `login_required` aborted with 403. -/
  | forbidden
  /-- Check `verify_jwt_in_request` rejected the token with 401. -/
  | unauthorized
  /-- Decorator `flask_pydantic.validate` rejected the body with 400. -/
  | badRequest
deriving DecidableEq, Repr

/-- A decorator wrapping an endpoint handler: `@login_required()` or
`@validate()` against a declared schema. -/
inductive Wrapper where
  | login_required
  | validateWith (s : Schema)
deriving DecidableEq, Repr

/-- Run a request through an endpoint's decorator chain, outermost first.
`login_required` checks the token, then aborts 403 when the resolved user's
`password_changed_at` is falsy; `validate` parses the body against the
schema and returns 400 on failure, all before the handler itself runs. -/
def processRequest : List Wrapper → AuthRequest → Payload → Outcome
  | [], _, _ => .handlerRun
  | .login_required :: rest, a, p =>
      if a.tokenValid = false then .unauthorized
      else if a.user.password_changed_at.isNone then .forbidden
      else processRequest rest a p
  | .validateWith s :: rest, a, p =>
      match validateBody s p with
      | none => .badRequest
      | some _ => processRequest rest a p

/-- Decorator chains of every endpoint in `api.py`, outermost decorator
first (Python applies stacked decorators bottom-up, so the decorator listed
directly under `@api.route` runs first). -/
def api_login_pipeline : List Wrapper := [.validateWith LoginSchema]

def shares_list_pipeline : List Wrapper := [.login_required]

def share_email_list_pipeline : List Wrapper := [.login_required]

def member_list_pipeline : List Wrapper := [.login_required]

def post_member_pipeline : List Wrapper := [.login_required, .validateWith MemberSchema]

def patch_member_pipeline : List Wrapper := [.login_required, .validateWith MemberPatchSchema]

def member_delete_pipeline : List Wrapper := [.login_required]

def get_payment_list_pipeline : List Wrapper := [.login_required]

def get_stations_pipeline : List Wrapper := [.login_required]

def shares_details_pipeline : List Wrapper := [.login_required]

def share_deposits_pipeline : List Wrapper := [.login_required]

def share_bets_pipeline : List Wrapper := [.login_required]

/-- Endpoint `post_bet` stacks `@validate()` above `@login_required()`, so body
validation runs before the authentication check. -/
def post_bet_pipeline : List Wrapper := [.validateWith BetSchema, .login_required]

/-- Endpoint `put_bet` stacks `@validate()` above `@login_required()`, so body
validation runs before the authentication check. -/
def put_bet_pipeline : List Wrapper := [.validateWith BetSchema, .login_required]

def delete_bet_pipeline : List Wrapper := [.login_required]

def patch_share_pipeline : List Wrapper := [.login_required, .validateWith SharePatchSchema]

def post_shares_details_pipeline : List Wrapper := [.login_required, .validateWith ShareSchema]

def add_share_pipeline : List Wrapper := [.login_required]

def patch_deposit_pipeline : List Wrapper := [.login_required, .validateWith DepositPatchSchema]

def post_deposit_pipeline : List Wrapper := [.login_required, .validateWith DepositSchema]

def merge_shares_pipeline : List Wrapper := [.login_required, .validateWith MergeSharesSchema]

def get_person_pipeline : List Wrapper := [.login_required]

def user_list_pipeline : List Wrapper := [.login_required]

def modify_user_pipeline : List Wrapper := [.login_required, .validateWith PatchUserModel]

/-- Every protected endpoint of `api.py` (all endpoints except login),
paired with its decorator chain. -/
def protectedEndpoints : List (String × List Wrapper) :=
  [("shares_list", shares_list_pipeline),
   ("share_email_list", share_email_list_pipeline),
   ("member_list", member_list_pipeline),
   ("post_member", post_member_pipeline),
   ("patch_member", patch_member_pipeline),
   ("member_delete", member_delete_pipeline),
   ("get_payment_list", get_payment_list_pipeline),
   ("get_stations", get_stations_pipeline),
   ("shares_details", shares_details_pipeline),
   ("share_deposits", share_deposits_pipeline),
   ("share_bets", share_bets_pipeline),
   ("post_bet", post_bet_pipeline),
   ("put_bet", put_bet_pipeline),
   ("delete_bet", delete_bet_pipeline),
   ("patch_share", patch_share_pipeline),
   ("post_shares_details", post_shares_details_pipeline),
   ("add_share", add_share_pipeline),
   ("patch_deposit", patch_deposit_pipeline),
   ("post_deposit", post_deposit_pipeline),
   ("merge_shares", merge_shares_pipeline),
   ("get_person", get_person_pipeline),
   ("user_list", user_list_pipeline),
   ("modify_user", modify_user_pipeline)]

/-- The protected endpoints whose outermost decorator is `login_required`:
all of them except `post_bet` and `put_bet`. -/
def authFirstEndpoints : List (String × List Wrapper) :=
  protectedEndpoints.filter (fun e => e.2.head? == some Wrapper.login_required)

/-- A calendar date/datetime as constructed by `datetime(year, month, day)`. -/
structure PyDate where
  year : Int
  month : Int
  day : Int
deriving DecidableEq, Repr

/-- A pickup station (`Station` in `models.py`). -/
structure Station where
  id : Int
  name : String
deriving DecidableEq, Repr

/-- A share record, with the attributes the handlers in `src/` read and
write.  `models.py` is absent from `src/`, so the attribute set is taken
from those call sites: `bet_value` abstracts the share's current pledge
(stored as a Bet row by `Share.set_value_for_id`), and `currently_active`,
derived in `models.py` from the share's bets, is modelled from the spec as a
stored boolean. -/
structure Share where
  id : Int
  name : Option String := none
  note : Option String := none
  archived : Option Bool := none
  station_id : Option Int := none
  start_date : Option PyDate := none
  bet_value : Option String := none
  currently_active : Bool := false
deriving DecidableEq, Repr

/-- A member record (`Member` in `models.py`). -/
structure Member where
  id : Int
  name : String
  email : Option String := none
  phone : Option String := none
  share_id : Int
deriving DecidableEq, Repr

/-- A deposit record, reduced to the attributes the PATCH endpoint touches. -/
structure Deposit where
  id : Int
  ignore : Option Bool := none
  is_security : Option Bool := none
deriving DecidableEq, Repr

/-- A pledge record, reduced to its owning-share reference. -/
structure Bet where
  id : Int
  share_id : Int
deriving DecidableEq, Repr

/-- The persistent store. -/
structure DB where
  shares : List Share := []
  members : List Member := []
  deposits : List Deposit := []
  bets : List Bet := []
  stations : List Station := []
  nextShareId : Int := 1
  nextMemberId : Int := 1
deriving DecidableEq, Repr

/-- Primary-key lookup, `Share.get` / `Share.query.get`. -/
def findShare (db : DB) (sid : Int) : Option Share :=
  db.shares.find? (fun s => s.id == sid)

/-- Primary-key lookup, `Member.get`. -/
def findMember (db : DB) (mid : Int) : Option Member :=
  db.members.find? (fun m => m.id == mid)

/-- Primary-key lookup, `Deposit.get`. -/
def findDeposit (db : DB) (did : Int) : Option Deposit :=
  db.deposits.find? (fun d => d.id == did)

/-- Replace the share with the given id by applying `f` to it. -/
def updateShare (db : DB) (sid : Int) (f : Share → Share) : DB :=
  { db with shares := db.shares.map (fun s => if s.id == sid then f s else s) }

/-- Persist a mutated share object (`share.save()`). -/
def saveShare (db : DB) (s : Share) : DB :=
  updateShare db s.id (fun _ => s)

/-- Persist a mutated member object (`member.save()`). -/
def saveMember (db : DB) (m : Member) : DB :=
  { db with members := db.members.map (fun t => if t.id == m.id then m else t) }

/-- Persist a mutated deposit object (`deposit.save()`). -/
def saveDeposit (db : DB) (d : Deposit) : DB :=
  { db with deposits := db.deposits.map (fun t => if t.id == d.id then d else t) }

/-- Python truthiness of an optional integer: `None` and `0` are falsy. -/
def pyFalsyInt : Option Int → Bool
  | none => true
  | some n => n == 0

/-- Body of POST /api/v1/members after validation against `MemberSchema`. -/
structure MemberBody where
  name : String
  share_id : Option Int := none
  email : Option String := none
  phone : Option String := none
deriving DecidableEq, Repr

/-- Handler `post_member` (api.py lines 95-106): when `share_id` is falsy a
brand-new empty `Share()` is created and saved first, and the member is
attached to it; otherwise the member is attached to the given share. -/
def post_member (db : DB) (body : MemberBody) : DB × Member :=
  let created :=
    if pyFalsyInt body.share_id then
      let share : Share := { id := db.nextShareId }
      ({ db with shares := db.shares ++ [share], nextShareId := db.nextShareId + 1 },
       db.nextShareId)
    else (db, body.share_id.getD 0)
  let db1 := created.1
  let member : Member :=
    { id := db1.nextMemberId, name := body.name, email := body.email,
      phone := body.phone, share_id := created.2 }
  ({ db1 with members := db1.members ++ [member], nextMemberId := db1.nextMemberId + 1 },
   member)

/-- Read a parsed field as a string, pydantic `None` otherwise. -/
def jsonStr : Option JsonVal → Option String
  | some (.str s) => some s
  | _ => none

/-- Read a parsed field as an integer, pydantic `None` otherwise. -/
def jsonInt : Option JsonVal → Option Int
  | some (.int n) => some n
  | _ => none

/-- Read a parsed field as a boolean, pydantic `None` otherwise. -/
def jsonBool : Option JsonVal → Option Bool
  | some (.bool b) => some b
  | _ => none

/-- Parsed `MemberPatchSchema` body as `body.dict()` exposes it: every
declared field present, `None` for absent or null fields. -/
structure MemberPatchBody where
  name : Option String
  share_id : Option Int
  email : Option String
  phone : Option String
deriving DecidableEq, Repr

/-- View of a validated payload as a `MemberPatchBody`. -/
def toMemberPatchBody (parsed : Payload) : MemberPatchBody :=
  { name := jsonStr (lookupField parsed "name"),
    share_id := jsonInt (lookupField parsed "share_id"),
    email := jsonStr (lookupField parsed "email"),
    phone := jsonStr (lookupField parsed "phone") }

/-- The setattr loop of `patch_member`: only fields whose parsed value is
not `None` are assigned. -/
def apply_member_patch (m : Member) (b : MemberPatchBody) : Member :=
  let m1 := match b.name with | some v => { m with name := v } | none => m
  let m2 := match b.share_id with | some v => { m1 with share_id := v } | none => m1
  let m3 := match b.email with | some v => { m2 with email := some v } | none => m2
  match b.phone with | some v => { m3 with phone := some v } | none => m3

/-- Outcome of a validated mutating endpoint: 400 from the schema, 404 from
the record lookup, or the updated store and record. -/
inductive PatchResult (α : Type) where
  | invalid
  | notFound
  | patched (val : α)
deriving DecidableEq, Repr

/-- Endpoint PATCH /api/v1/members/id, `patch_member` (api.py lines
113-123): `@validate()` rejects invalid bodies, `Member.get` yields 404,
and the setattr loop skips `None` values. -/
def patch_member (db : DB) (member_id : Int) (p : Payload) : PatchResult (DB × Member) :=
  match validateBody MemberPatchSchema p with
  | none => .invalid
  | some parsed =>
      match findMember db member_id with
      | none => .notFound
      | some m =>
          let m2 := apply_member_patch m (toMemberPatchBody parsed)
          .patched (saveMember db m2, m2)

/-- Parsed `SharePatchSchema` body as `body.dict()` exposes it. -/
structure SharePatchBody where
  note : Option String
  archived : Option Bool
deriving DecidableEq, Repr

/-- View of a validated payload as a `SharePatchBody`. -/
def toSharePatchBody (parsed : Payload) : SharePatchBody :=
  { note := jsonStr (lookupField parsed "note"),
    archived := jsonBool (lookupField parsed "archived") }

/-- The setattr loop of `patch_share`: every parsed field is assigned,
`None` included. -/
def apply_share_patch (s : Share) (b : SharePatchBody) : Share :=
  { s with note := b.note, archived := b.archived }

/-- Endpoint PATCH /api/v1/shares/id, `patch_share` (api.py lines 241-250). -/
def patch_share (db : DB) (share_id : Int) (p : Payload) : PatchResult (DB × Share) :=
  match validateBody SharePatchSchema p with
  | none => .invalid
  | some parsed =>
      match findShare db share_id with
      | none => .notFound
      | some s =>
          let s2 := apply_share_patch s (toSharePatchBody parsed)
          .patched (saveShare db s2, s2)

/-- Parsed `DepositPatchSchema` body as `body.dict()` exposes it. -/
structure DepositPatchBody where
  ignore : Option Bool
  is_security : Option Bool
deriving DecidableEq, Repr

/-- View of a validated payload as a `DepositPatchBody`. -/
def toDepositPatchBody (parsed : Payload) : DepositPatchBody :=
  { ignore := jsonBool (lookupField parsed "ignore"),
    is_security := jsonBool (lookupField parsed "is_security") }

/-- The setattr loop of `patch_deposit`: every parsed field is assigned,
`None` included. -/
def apply_deposit_patch (d : Deposit) (b : DepositPatchBody) : Deposit :=
  { d with ignore := b.ignore, is_security := b.is_security }

/-- Endpoint PATCH /api/v1/deposits/id, `patch_deposit` (api.py lines
290-299). -/
def patch_deposit (db : DB) (deposit_id : Int) (p : Payload) : PatchResult (DB × Deposit) :=
  match validateBody DepositPatchSchema p with
  | none => .invalid
  | some parsed =>
      match findDeposit db deposit_id with
      | none => .notFound
      | some d =>
          let d2 := apply_deposit_patch d (toDepositPatchBody parsed)
          .patched (saveDeposit db d2, d2)

/-- Modelled from the spec: `share.station_name` is derived in `models.py`
(absent from `src/`) — the display name of the share's station, empty string
when the share has none. -/
def station_name (db : DB) (s : Share) : String :=
  match s.station_id.bind (fun stid => db.stations.find? (fun st => st.id == stid)) with
  | some st => st.name
  | none => ""

/-- Modelled from the spec: `share.join_date` is derived in `models.py`
(absent from `src/`) — the share's effective start date surfaced for
display, empty string when absent. -/
def join_date (s : Share) : String :=
  match s.start_date with
  | some d => toString d.year ++ "-" ++ toString d.month ++ "-" ++ toString d.day
  | none => ""

/-- Modelled from the spec: the filter expression
`member.share.currently_active` of `member_list`; `Share.currently_active`
is derived in `models.py` (absent from `src/`) and modelled as the share's
stored `currently_active` boolean. -/
def member_share_active (db : DB) (m : Member) : Bool :=
  match findShare db m.share_id with
  | some sh => sh.currently_active
  | none => false

/-- One entry of the GET /api/v1/members response: the member plus its
share's station name and join date, empty strings when the share is
absent. -/
structure MemberRow where
  member : Member
  station_name : String
  join_date : String
deriving DecidableEq, Repr

/-- The annotation step of `member_list` for one member. -/
def member_row (db : DB) (m : Member) : MemberRow :=
  { member := m,
    station_name := match findShare db m.share_id with
                    | some sh => station_name db sh
                    | none => "",
    join_date := match findShare db m.share_id with
                 | some sh => join_date sh
                 | none => "" }

/-- Endpoint GET /api/v1/members, `member_list` (api.py lines 71-85):
`request.args.get("active")` is `None` when the query parameter is absent,
and the filter runs only when that value is truthy — that is, a non-empty
string. -/
def member_list (db : DB) (active_arg : Option String) : List MemberRow :=
  let members := db.members
  let members :=
    if active_arg.getD "" ≠ "" then members.filter (member_share_active db)
    else members
  members.map (member_row db)

/-- Modelled from the spec: field reconciliation in `controller.merge`
(controller.py is absent from `src/`) favors the primary share's existing
values, falling back to the secondary share's where the primary has none. -/
def reconcileShare (keep dropped : Share) : Share :=
  { keep with
    note := match keep.note with | some n => some n | none => dropped.note,
    archived := match keep.archived with | some a => some a | none => dropped.archived,
    station_id := match keep.station_id with | some st => some st | none => dropped.station_id }

/-- Modelled from the spec: `controller.merge(share1_id, share2_id)`
(controller.py is absent from `src/`).  A missing or falsy id is a no-op
returning nothing; otherwise both ids must resolve to existing shares, the
secondary share's members and bets are reassigned to the primary, fields
are reconciled, the secondary share is deleted, and the primary share's id
is returned. -/
def merge (share1_id share2_id : Option Int) (db : DB) : DB × Option Int :=
  if pyFalsyInt share1_id || pyFalsyInt share2_id then (db, none)
  else
    let s1 := share1_id.getD 0
    let s2 := share2_id.getD 0
    match findShare db s1, findShare db s2 with
    | some keep, some dropped =>
        ({ db with
            members := db.members.map
              (fun m => if m.share_id == s2 then { m with share_id := s1 } else m),
            bets := db.bets.map
              (fun b => if b.share_id == s2 then { b with share_id := s1 } else b),
            shares := (db.shares.map
                (fun s => if s.id == s1 then reconcileShare keep dropped else s)).filter
              (fun s => !(s.id == s2)) },
         some s1)
    | _, _ => (db, none)

/-- Body of POST /api/v1/shares/merge after validation. -/
structure MergeBody where
  share1 : Int
  share2 : Int
deriving DecidableEq, Repr

/-- Endpoint POST /api/v1/shares/merge, `merge_shares` (api.py lines
328-333): invokes `merge` and unconditionally answers 200 with the body
message "success", discarding the merge result. -/
def merge_shares (db : DB) (body : MergeBody) : DB × (Nat × List (String × JsonVal)) :=
  let result := merge (some body.share1) (some body.share2) db
  (result.1, (200, [("message", JsonVal.str "success")]))

/-- First value submitted under a form key (`request.form[k]`), empty when
the key is absent. -/
def formGet (form : List (String × String)) (k : String) : String :=
  ((form.find? (fun kv => kv.1 == k)).map (fun kv => kv.2)).getD ""

/-- Python `chr in s` membership test, over the character list so that it
evaluates by reduction. -/
def strContains (s : String) (c : Char) : Bool :=
  s.data.contains c

/-- Python `pre + anything == s` prefix test (`str.startswith`), over the
character lists. -/
def strStartsWith (s pre : String) : Bool :=
  pre.data.isPrefixOf s.data

/-- Decimal value of a digit character. -/
def pyDigit (c : Char) : Option Nat :=
  if 48 ≤ c.toNat && c.toNat ≤ 57 then some (c.toNat - 48) else none

/-- Parse a non-empty all-digit character list. -/
def parseNatChars : List Char → Option Nat
  | [] => none
  | l => l.foldlM (fun acc c => (pyDigit c).map (fun d => acc * 10 + d)) 0

/-- Python `int(s)` on a plain decimal string with an optional leading
minus sign; `none` where the source would raise `ValueError`. -/
def pyToInt (s : String) : Option Int :=
  match s.data with
  | '-' :: rest => (parseNatChars rest).map (fun n => -(n : Int))
  | l => (parseNatChars l).map (fun n => (n : Int))

/-- The second dash-separated component of a form key —
`share_id.split(chr(45))[1]` — or `none` when there is no dash and the
source would raise `IndexError`. -/
def secondDashComponent (k : String) : Option String :=
  match k.data.dropWhile (fun c => !(c == '-')) with
  | [] => none
  | _ :: rest => some (String.mk (rest.takeWhile (fun c => !(c == '-'))))

/-- Share id extracted from a form key, as the `/bets` route computes it. -/
def keyShareId (k : String) : Option Int :=
  (secondDashComponent k).bind pyToInt

/-- Modelled from the spec: `Share.set_value_for_id(value, share_id)`
(models.py is absent from `src/`) upserts the share's pledge value,
creating a Bet record when needed, and persists immediately; modelled as
storing the submitted value as the share's current pledge. -/
def set_value_for_id (value : String) (sid : Int) (db : DB) : DB :=
  updateShare db sid (fun s => { s with bet_value := some value })

/-- Modelled from the spec: `Share.set_station_for_id(station_id, share_id)`
(models.py is absent from `src/`) updates the share's station and persists
immediately. -/
def set_station_for_id (stn : Int) (sid : Int) (db : DB) : DB :=
  updateShare db sid (fun s => { s with station_id := some stn })

/-- POST branch of the /bets route, `bets_overview` (old_app.py lines
110-138): one pass per form-key family — `value-` keys first, then
`station-` keys (skipped when the submitted value is the literal string
"None"), then `month-` keys, which set the share's start date to day 1 of
the submitted month in the fixed year 2017 — then a redirect back to /bets.
Inputs on which the source raises (unparseable ids or months, missing
shares) yield `none`. -/
def bets_overview_post (form : List (String × String)) (db : DB) : Option (DB × String) := do
  let all_keys := form.map (fun kv => kv.1)
  let value_keys := all_keys.filter (fun k => strStartsWith k "value")
  let month_keys := all_keys.filter (fun k => strStartsWith k "month")
  let station_keys := all_keys.filter (fun k => strStartsWith k "station")
  let db1 ← value_keys.foldlM (fun d k => do
      let sid ← keyShareId k
      pure (set_value_for_id (formGet form k) sid d)) db
  let db2 ← station_keys.foldlM (fun d k => do
      let station_id := formGet form k
      if station_id ≠ "None" then
        let sid ← keyShareId k
        let stn ← pyToInt station_id
        pure (set_station_for_id stn sid d)
      else
        pure d) db1
  let db3 ← month_keys.foldlM (fun d k => do
      let month ← pyToInt (formGet form k)
      let sid ← keyShareId k
      let share ← findShare d sid
      pure (saveShare d { share with start_date := some ⟨2017, month, 1⟩ })) db2
  pure (db3, "/bets")

/-- One share's family of form fields on the /bets bulk-edit grid: the id
string the page embeds in the field names, the integer it parses to, and
the submitted value, station and month together with their parses (the
station parse is only meaningful when the station string is not the
placeholder "None"). -/
structure BetsFormEntry where
  sidStr : String
  sid : Int
  value : String
  station : String
  stationNum : Int
  month : String
  monthNum : Int
deriving DecidableEq, Repr

/-- The three form fields the /bets grid submits for one share. -/
def entryForm (e : BetsFormEntry) : List (String × String) :=
  [("value-" ++ e.sidStr, e.value), ("station-" ++ e.sidStr, e.station),
   ("month-" ++ e.sidStr, e.month)]

/-- A whole /bets form: the field families of a list of shares. -/
def entriesForm (L : List BetsFormEntry) : List (String × String) :=
  (L.map entryForm).flatten

/-- Well-formedness of one submitted family against the store: the id and
month strings parse, the station string parses when it is not the literal
"None", the id string carries no dash, and the share exists. -/
def entryOk (db : DB) (e : BetsFormEntry) : Prop :=
  pyToInt e.sidStr = some e.sid
  ∧ e.sidStr.data.all (fun c => !(c == '-')) = true
  ∧ pyToInt e.month = some e.monthNum
  ∧ (e.station ≠ "None" → pyToInt e.station = some e.stationNum)
  ∧ (findShare db e.sid).isSome = true

instance (db : DB) (e : BetsFormEntry) : Decidable (entryOk db e) := by
  unfold entryOk
  infer_instance

/-- The net effect of one submitted family on its share, as the claim
states it: pledge value set, station set unless the placeholder "None" was
submitted, start date set to day 1 of the month in the fixed year 2017. -/
def entryUpdate (e : BetsFormEntry) (t : Share) : Share :=
  { t with bet_value := some e.value,
           station_id := if e.station = "None" then t.station_id else some e.stationNum,
           start_date := some ⟨2017, e.monthNum, 1⟩ }

/-- The net effect of one pass of the value-keys loop of `bets_overview`
on the store, per entry. -/
def applyValueField (d : DB) (e : BetsFormEntry) : DB :=
  set_value_for_id e.value e.sid d

/-- The net effect of one pass of the station-keys loop of `bets_overview`
on the store, per entry: skipped entirely for the placeholder "None". -/
def applyStationField (d : DB) (e : BetsFormEntry) : DB :=
  if e.station = "None" then d else set_station_for_id e.stationNum e.sid d

/-- The part of the filename after its last dot — what
`filename.rsplit(chr(46), 1)[1]` yields when a dot is present. -/
def afterLastDot (filename : String) : String :=
  String.mk ((filename.data.reverse.takeWhile (fun c => !(c == '.'))).reverse)

/-- Helper `allowed_file` (old_app.py lines 141-143): a dot must be present
and the part after the last dot must be exactly "csv" or exactly "CSV". -/
def allowed_file (filename : String) : Bool :=
  strContains filename '.' && ["csv", "CSV"].contains (afterLastDot filename)

/-- An uploaded file: its submitted filename and its raw lines. -/
structure UploadedFile where
  filename : String
  lines : List String
deriving DecidableEq, Repr

/-- The parse of an accepted upload, recording how the source interprets
the lines: text decoded with the named codec, split on the named delimiter,
first row treated as the header (`csv.DictReader`). -/
structure ImportRows where
  codec : String
  delimiter : String
  lines : List String
deriving DecidableEq, Repr

/-- Outcome of the POST branch of /upload: either the parsed rows are
handed to `import_deposits` and the browser is redirected to the index, or
the upload form is re-rendered with no effect. -/
inductive UploadResult where
  | redirect_index (rows : ImportRows)
  | render_upload_form
deriving DecidableEq, Repr

/-- POST branch of /upload, `upload_file` (old_app.py lines 146-156): a
falsy or disallowed file re-renders the form with no effect; an accepted
file's lines are decoded with codec "windows-1252" and parsed by
`csv.DictReader` with delimiter ";". -/
def upload_file (sent_file : Option UploadedFile) : UploadResult :=
  match sent_file with
  | some f =>
      if allowed_file f.filename then
        .redirect_index { codec := "windows-1252", delimiter := ";", lines := f.lines }
      else .render_upload_form
  | none => .render_upload_form

theorem validateBody_none_of_extra (s : Schema) (p : Payload) (k : String) (v : JsonVal)
    (hforbid : s.forbidExtra = true) (hmem : (k, v) ∈ p)
    (hk : schemaHasKey s k = false) :
    validateBody s p = none := by
  have hextra : hasExtraField s p = true := by
    unfold hasExtraField
    exact List.any_eq_true.mpr ⟨(k, v), hmem, by simp [hk]⟩
  unfold validateBody
  simp [hforbid, hextra]

/-- C1: the claim asserts that POST /api/v1/login rejects a payload carrying
an unrecognized field; in the code `LoginSchema` is declared without
`Extra.forbid`, so the default policy silently ignores the extra key and the
recognized fields are parsed and applied. -/
theorem C1_counterexample :
    validateBody LoginSchema
        [("email", .str "user@example.org"), ("password", .str "pw"),
         ("unexpected", .str "x")]
      = some [("email", .str "user@example.org"), ("password", .str "pw")] := by
  decide

/-- C1 (amended): strict forbid-extra rejection holds exactly at the schemas
declared with `Extra.forbid` (`MemberSchema`, `MemberPatchSchema`,
`BetSchema`, `SharePatchSchema`, `DepositPatchSchema`, `DepositSchema`):
there any payload carrying an unrecognized key is rejected wholesale.
`LoginSchema`, `MergeSharesSchema`, `PatchUserModel` and `ShareSchema` use
the pydantic default, which silently ignores unrecognized fields and applies
the recognized ones. -/
theorem C1_strict_only_for_forbid_schemas (p : Payload) (k : String) (v : JsonVal)
    (hmem : (k, v) ∈ p) :
    (schemaHasKey MemberSchema k = false → validateBody MemberSchema p = none)
    ∧ (schemaHasKey MemberPatchSchema k = false → validateBody MemberPatchSchema p = none)
    ∧ (schemaHasKey BetSchema k = false → validateBody BetSchema p = none)
    ∧ (schemaHasKey SharePatchSchema k = false → validateBody SharePatchSchema p = none)
    ∧ (schemaHasKey DepositPatchSchema k = false → validateBody DepositPatchSchema p = none)
    ∧ (schemaHasKey DepositSchema k = false → validateBody DepositSchema p = none)
    ∧ validateBody LoginSchema
        [("email", .str "user@example.org"), ("password", .str "pw"),
         ("unexpected", .str "x")]
      = some [("email", .str "user@example.org"), ("password", .str "pw")]
    ∧ validateBody MergeSharesSchema
        [("share1", .int 1), ("share2", .int 2), ("unexpected", .str "x")]
      = some [("share1", .int 1), ("share2", .int 2)]
    ∧ validateBody PatchUserModel
        [("password", .str "longenoughsecret"), ("unexpected", .str "x")]
      = some [("password", .str "longenoughsecret")]
    ∧ validateBody ShareSchema
        [("id", .str "5"), ("station_id", .int 3), ("unexpected", .str "x")]
      = some [("id", .str "5"), ("station_id", .int 3),
              ("note", .null), ("archived", .null)] := by
  refine ⟨?_, ?_, ?_, ?_, ?_, ?_, by decide, by decide, by decide, by decide⟩
  all_goals intro hk
  all_goals exact validateBody_none_of_extra _ p k v rfl hmem hk

theorem C1_strict_only_for_forbid_schemas_witness :
    validateBody MemberSchema [("surprise", JsonVal.str "x")] = none :=
  (C1_strict_only_for_forbid_schemas
      [("surprise", JsonVal.str "x")] "surprise" (JsonVal.str "x")
      (by decide)).1 (by decide)

theorem processRequest_login_required_forbidden (rest : List Wrapper)
    (a : AuthRequest) (p : Payload)
    (htok : a.tokenValid = true) (hprov : a.user.password_changed_at = none) :
    processRequest (.login_required :: rest) a p = .forbidden := by
  simp [processRequest, htok, hprov]

/-- C2: the claim asserts that GET /api/v1/shares/id reports
`difference_today` with sign convention expected − total; with
`expected_today = 10` and `total_deposits = 3` the handler computes
`-(10 - 3) = -7`, not `10 - 3 = 7`. -/
theorem C2_counterexample :
    (shares_details 10 (some 3)).difference_today ≠ (10 : Rat) - 3 := by
  norm_num [shares_details]

/-- C2 (amended): GET /api/v1/shares/id computes
`difference_today = -(expected_today - total_deposits)`, which equals total
deposits minus expected-today — the same sign convention as
GET /api/v1/shares/payment_status, not the opposite one. -/
theorem C2_same_sign_convention (e : Rat) (td : Option Rat)
    (dd : Option DepositDetails) (em : Option Rat) :
    (shares_details e td).difference_today = td.getD 0 - e
    ∧ (share_payments dd em).difference_today
        = (dd.map (fun d => d.total_deposits)).getD 0 - em.getD 0
    ∧ ((dd.map (fun d => d.total_deposits)).getD 0 = td.getD 0 → em = some e →
        (share_payments dd em).difference_today = (shares_details e td).difference_today) := by
  refine ⟨?_, by simp [share_payments], ?_⟩
  · simp only [shares_details]
    ring
  · intro h1 h2
    simp only [share_payments, shares_details, h1, h2, Option.getD_some]
    ring

theorem C2_same_sign_convention_witness :
    (share_payments (some ⟨3, 1⟩) (some 10)).difference_today
      = (shares_details 10 (some 3)).difference_today :=
  (C2_same_sign_convention 10 (some 3) (some ⟨3, 1⟩) (some 10)).2.2 rfl rfl

/-- C3: the claim asserts that every protected endpoint fails 403 for a
valid token resolving to a user with no `password_changed_at`, regardless
of whether the request would otherwise succeed; at POST
/api/v1/shares/id/bets the `@validate()` decorator is stacked above
`@login_required()`, so an empty body is rejected 400 before the 403
check. -/
theorem C3_counterexample :
    processRequest post_bet_pipeline
        { tokenValid := true, user := { id := 1, email := "u@example.org" } } []
      = .badRequest
    ∧ processRequest post_bet_pipeline
        { tokenValid := true, user := { id := 1, email := "u@example.org" } } []
      ≠ .forbidden := by
  decide

/-- C3 (amended): for a valid token resolving to a user with no
`password_changed_at`, every protected endpoint whose outermost decorator is
`login_required` (all of them except `post_bet` and `put_bet`) fails 403
before its handler runs, for every body; at `post_bet` and `put_bet`, body
validation runs first, so a body failing `BetSchema` is rejected 400 before
the authentication check, and a body passing it still yields 403.  In no
case does the handler logic run. -/
theorem C3_forbidden_for_provisional_user (a : AuthRequest) (p : Payload)
    (htok : a.tokenValid = true) (hprov : a.user.password_changed_at = none) :
    (∀ e ∈ authFirstEndpoints, processRequest e.2 a p = .forbidden)
    ∧ (validateBody BetSchema p ≠ none →
        processRequest post_bet_pipeline a p = .forbidden
        ∧ processRequest put_bet_pipeline a p = .forbidden)
    ∧ (validateBody BetSchema p = none →
        processRequest post_bet_pipeline a p = .badRequest
        ∧ processRequest put_bet_pipeline a p = .badRequest)
    ∧ (∀ e ∈ protectedEndpoints, processRequest e.2 a p ≠ .handlerRun)
    ∧ protectedEndpoints =
        authFirstEndpoints.take 11
          ++ [("post_bet", post_bet_pipeline), ("put_bet", put_bet_pipeline)]
          ++ authFirstEndpoints.drop 11 := by
  have hforbid := fun rest =>
    processRequest_login_required_forbidden rest a p htok hprov
  refine ⟨?_, ?_, ?_, ?_, by decide⟩
  · intro e he
    fin_cases he <;> exact hforbid _
  · intro hv
    rcases hval : validateBody BetSchema p with _ | parsed
    · exact absurd hval hv
    · constructor <;>
        simp [post_bet_pipeline, put_bet_pipeline, processRequest, hval, htok, hprov]
  · intro hv
    constructor <;>
      simp [post_bet_pipeline, put_bet_pipeline, processRequest, hv]
  · intro e he
    fin_cases he <;>
      rcases hval : validateBody BetSchema p with _ | parsed <;>
        simp [processRequest, hval, htok, hprov,
          shares_list_pipeline, share_email_list_pipeline, member_list_pipeline,
          post_member_pipeline, patch_member_pipeline, member_delete_pipeline,
          get_payment_list_pipeline, get_stations_pipeline, shares_details_pipeline,
          share_deposits_pipeline, share_bets_pipeline, post_bet_pipeline,
          put_bet_pipeline, delete_bet_pipeline, patch_share_pipeline,
          post_shares_details_pipeline, add_share_pipeline, patch_deposit_pipeline,
          post_deposit_pipeline, merge_shares_pipeline, get_person_pipeline,
          user_list_pipeline, modify_user_pipeline]

theorem C3_forbidden_for_provisional_user_witness :
    processRequest shares_list_pipeline
        { tokenValid := true, user := { id := 1, email := "u@example.org" } } []
      = .forbidden
    ∧ processRequest put_bet_pipeline
        { tokenValid := true, user := { id := 1, email := "u@example.org" } } []
      = .badRequest :=
  ⟨(C3_forbidden_for_provisional_user
        { tokenValid := true, user := { id := 1, email := "u@example.org" } } []
        rfl rfl).1 ("shares_list", shares_list_pipeline) (by decide),
   ((C3_forbidden_for_provisional_user
        { tokenValid := true, user := { id := 1, email := "u@example.org" } } []
        rfl rfl).2.2.1 (by decide)).2⟩

/-- C4: the claim asserts that a filename with a `.csv` extension in any
letter case is accepted; `allowed_file` compares the extension against the
exact strings "csv" and "CSV", so the mixed-case "export.Csv" is rejected
and the upload is a no-op. -/
theorem C4_counterexample :
    allowed_file "export.Csv" = false
    ∧ upload_file (some { filename := "export.Csv", lines := ["a;b"] })
        = .render_upload_form := by
  constructor <;> rfl

theorem allowed_file_iff (filename : String) :
    allowed_file filename = true
      ↔ (strContains filename '.'
          ∧ (afterLastDot filename = "csv" ∨ afterLastDot filename = "CSV")) := by
  unfold allowed_file
  rw [Bool.and_eq_true]
  simp

/-- C4 (amended): a POST to /upload accepts and processes the file iff its
filename contains a dot and the part after the last dot is exactly "csv" or
exactly "CSV" (mixed letter case is rejected); an accepted file's lines are
recorded as decoded with the Windows-1252 codec and parsed
semicolon-delimited with a header row, and any other filename silently
re-renders the form with no effect. -/
theorem C4_upload_accepts_exact_csv (file : UploadedFile) :
    (upload_file (some file)
        = .redirect_index { codec := "windows-1252", delimiter := ";", lines := file.lines }
      ↔ (strContains file.filename '.'
          ∧ (afterLastDot file.filename = "csv" ∨ afterLastDot file.filename = "CSV")))
    ∧ (allowed_file file.filename = false →
        upload_file (some file) = .render_upload_form)
    ∧ upload_file none = .render_upload_form := by
  refine ⟨?_, ?_, rfl⟩
  · rw [← allowed_file_iff]
    rcases h : allowed_file file.filename with _ | _ <;>
      simp [upload_file, h]
  · intro h
    simp [upload_file, h]

theorem C4_upload_accepts_exact_csv_witness :
    upload_file (some { filename := "export.csv", lines := ["h;k", "1;2"] })
      = .redirect_index
          { codec := "windows-1252", delimiter := ";", lines := ["h;k", "1;2"] } :=
  (C4_upload_accepts_exact_csv { filename := "export.csv", lines := ["h;k", "1;2"] }).1.mpr
    (by constructor <;> first | rfl | exact Or.inl rfl)

/-- C5: POST /api/v1/members with no `share_id` creates exactly one new
empty Share and attaches the created member to it; with an existing
(non-falsy) `share_id` it creates no Share and attaches the member to the
given share. -/
theorem C5_post_member_share_creation (db : DB) (body : MemberBody) (sid : Int) :
    (body.share_id = none →
        (post_member db body).1.shares = db.shares ++ [{ id := db.nextShareId }]
        ∧ (post_member db body).2.share_id = db.nextShareId
        ∧ (post_member db body).1.members = db.members ++ [(post_member db body).2])
    ∧ (body.share_id = some sid → sid ≠ 0 → (∃ s ∈ db.shares, s.id = sid) →
        (post_member db body).1.shares = db.shares
        ∧ (post_member db body).2.share_id = sid
        ∧ (post_member db body).1.members = db.members ++ [(post_member db body).2]) := by
  constructor
  · intro h
    refine ⟨?_, ?_, ?_⟩ <;> simp [post_member, pyFalsyInt, h]
  · intro h hz hex
    refine ⟨?_, ?_, ?_⟩ <;> simp [post_member, pyFalsyInt, h, hz]

theorem C5_post_member_share_creation_witness :
    ((post_member { } { name := "Ann" }).1.shares = [] ++ [{ id := 1 }]
      ∧ (post_member { } { name := "Ann" }).2.share_id = 1)
    ∧ ((post_member { shares := [{ id := 7 }] }
          { name := "Bob", share_id := some 7 }).1.shares = [{ id := 7 }]
      ∧ (post_member { shares := [{ id := 7 }] }
          { name := "Bob", share_id := some 7 }).2.share_id = 7) :=
  ⟨⟨((C5_post_member_share_creation { } { name := "Ann" } 0).1 rfl).1,
    ((C5_post_member_share_creation { } { name := "Ann" } 0).1 rfl).2.1⟩,
   ⟨((C5_post_member_share_creation { shares := [{ id := 7 }] }
        { name := "Bob", share_id := some 7 } 7).2 rfl (by decide)
        ⟨{ id := 7 }, by simp, rfl⟩).1,
    ((C5_post_member_share_creation { shares := [{ id := 7 }] }
        { name := "Bob", share_id := some 7 } 7).2 rfl (by decide)
        ⟨{ id := 7 }, by simp, rfl⟩).2.1⟩⟩

/-- C9: whenever the merge operation returns — a real merge or the no-op of
a missing or falsy id — POST /api/v1/shares/merge answers 200 with exactly
the body message "success", so the response never carries the surviving
share's id or any indication of whether a merge occurred. -/
theorem C9_merge_response_constant (db : DB) (body : MergeBody) :
    (merge_shares db body).2 = (200, [("message", JsonVal.str "success")])
    ∧ (∀ db2 body2, (merge_shares db body).2 = (merge_shares db2 body2).2) :=
  ⟨rfl, fun _ _ => rfl⟩

/-- C10: the currently-active filter of GET /api/v1/members runs exactly
when the `active` query parameter is present with a non-empty value —
including "false" and "0" — and is skipped when the parameter is absent or
the empty string. -/
theorem C10_member_list_active_filter (db : DB) (s : String) (hs : s ≠ "") :
    member_list db (some s)
        = (db.members.filter (member_share_active db)).map (member_row db)
    ∧ member_list db none = db.members.map (member_row db)
    ∧ member_list db (some "") = db.members.map (member_row db) := by
  refine ⟨?_, ?_, ?_⟩ <;> simp [member_list, hs]

theorem C10_member_list_active_filter_witness :
    member_list { members := [{ id := 1, name := "Ann", share_id := 2 }] } (some "false") = []
    ∧ member_list { members := [{ id := 1, name := "Ann", share_id := 2 }] } (some "0") = []
    ∧ member_list { members := [{ id := 1, name := "Ann", share_id := 2 }] } none
        = [{ member := { id := 1, name := "Ann", share_id := 2 },
             station_name := "", join_date := "" }] :=
  ⟨((C10_member_list_active_filter
        { members := [{ id := 1, name := "Ann", share_id := 2 }] } "false"
        (by decide)).1).trans (by rfl),
   ((C10_member_list_active_filter
        { members := [{ id := 1, name := "Ann", share_id := 2 }] } "0"
        (by decide)).1).trans (by rfl),
   ((C10_member_list_active_filter
        { members := [{ id := 1, name := "Ann", share_id := 2 }] } "x"
        (by decide)).2.1).trans (by rfl)⟩

theorem validateBody_some_inv (s : Schema) (p out : Payload)
    (h : validateBody s p = some out) : parseFields p s.fields = some out := by
  unfold validateBody at h
  split at h
  · cases h
  · exact h

theorem parseFields_cons_inv (p : Payload) (f : FieldSpec) (fs : List FieldSpec) (out : Payload)
    (h : parseFields p (f :: fs) = some out) :
    ∃ v tl, parseField p f = some v ∧ parseFields p fs = some tl
      ∧ out = (f.name, v) :: tl := by
  unfold parseFields at h
  rcases h1 : parseField p f with _ | v <;> rw [h1] at h
  · cases h
  · rcases h2 : parseFields p fs with _ | tl <;> rw [h2] at h
    · cases h
    · injection h with h
      exact ⟨v, tl, rfl, rfl, h.symm⟩

theorem parseFields_nil_inv (p out : Payload)
    (h : parseFields p [] = some out) : out = [] := by
  unfold parseFields at h
  injection h with h
  exact h.symm

theorem parseField_eq_null_of_absent_or_null (p : Payload) (f : FieldSpec)
    (hreq : f.required = false) (hnm : valMatches f.ty .null = false)
    (habs : lookupField p f.name = none ∨ lookupField p f.name = some .null) :
    parseField p f = some .null := by
  unfold parseField
  rcases habs with h | h <;> rw [h] <;> simp [hreq, hnm]

theorem parseField_eq_of_lookup (p : Payload) (f : FieldSpec) (w : JsonVal)
    (hl : lookupField p f.name = some w) (hw : valMatches f.ty w = true) :
    parseField p f = some w := by
  unfold parseField
  rw [hl]
  simp [hw]

theorem apply_member_patch_name (m : Member) (b : MemberPatchBody) :
    (apply_member_patch m b).name
      = (match b.name with | some v => v | none => m.name) := by
  rcases b with ⟨bn, bs, be, bp⟩
  cases bn <;> cases bs <;> cases be <;> cases bp <;> rfl

theorem apply_member_patch_share_id (m : Member) (b : MemberPatchBody) :
    (apply_member_patch m b).share_id
      = (match b.share_id with | some v => v | none => m.share_id) := by
  rcases b with ⟨bn, bs, be, bp⟩
  cases bn <;> cases bs <;> cases be <;> cases bp <;> rfl

theorem apply_member_patch_email (m : Member) (b : MemberPatchBody) :
    (apply_member_patch m b).email
      = (match b.email with | some v => some v | none => m.email) := by
  rcases b with ⟨bn, bs, be, bp⟩
  cases bn <;> cases bs <;> cases be <;> cases bp <;> rfl

theorem apply_member_patch_phone (m : Member) (b : MemberPatchBody) :
    (apply_member_patch m b).phone
      = (match b.phone with | some v => some v | none => m.phone) := by
  rcases b with ⟨bn, bs, be, bp⟩
  cases bn <;> cases bs <;> cases be <;> cases bp <;> rfl

/-- C6: PATCH /api/v1/members/id leaves every field whose value in the
request body is absent or explicitly null unchanged on the stored member
(nulls mean "not supplied", never "clear the field"), and applies exactly
the non-null supplied fields. -/
theorem C6_patch_member_skips_nulls (db : DB) (mid : Int) (m : Member) (p parsed : Payload)
    (hm : findMember db mid = some m)
    (hv : validateBody MemberPatchSchema p = some parsed) :
    patch_member db mid p
      = .patched (saveMember db (apply_member_patch m (toMemberPatchBody parsed)),
                  apply_member_patch m (toMemberPatchBody parsed))
    ∧ ((lookupField p "name" = none ∨ lookupField p "name" = some .null) →
        (apply_member_patch m (toMemberPatchBody parsed)).name = m.name)
    ∧ ((lookupField p "share_id" = none ∨ lookupField p "share_id" = some .null) →
        (apply_member_patch m (toMemberPatchBody parsed)).share_id = m.share_id)
    ∧ ((lookupField p "email" = none ∨ lookupField p "email" = some .null) →
        (apply_member_patch m (toMemberPatchBody parsed)).email = m.email)
    ∧ ((lookupField p "phone" = none ∨ lookupField p "phone" = some .null) →
        (apply_member_patch m (toMemberPatchBody parsed)).phone = m.phone)
    ∧ (∀ v, lookupField p "name" = some (.str v) →
        (apply_member_patch m (toMemberPatchBody parsed)).name = v)
    ∧ (∀ n : Int, lookupField p "share_id" = some (.int n) →
        (apply_member_patch m (toMemberPatchBody parsed)).share_id = n)
    ∧ (∀ v, lookupField p "email" = some (.str v) →
        (apply_member_patch m (toMemberPatchBody parsed)).email = some v)
    ∧ (∀ v, lookupField p "phone" = some (.str v) →
        (apply_member_patch m (toMemberPatchBody parsed)).phone = some v) := by
  have hpf : parseFields p
      [⟨"name", false, .tStr⟩, ⟨"share_id", false, .tInt⟩,
       ⟨"email", false, .tStr⟩, ⟨"phone", false, .tStr⟩] = some parsed :=
    validateBody_some_inv _ _ _ hv
  obtain ⟨v1, t1, h1, hpf1, ho1⟩ := parseFields_cons_inv _ _ _ _ hpf
  obtain ⟨v2, t2, h2, hpf2, ho2⟩ := parseFields_cons_inv _ _ _ _ hpf1
  obtain ⟨v3, t3, h3, hpf3, ho3⟩ := parseFields_cons_inv _ _ _ _ hpf2
  obtain ⟨v4, t4, h4, hpf4, ho4⟩ := parseFields_cons_inv _ _ _ _ hpf3
  have ht4 := parseFields_nil_inv _ _ hpf4
  subst ht4 ho4 ho3 ho2 ho1
  have hb : toMemberPatchBody
      [("name", v1), ("share_id", v2), ("email", v3), ("phone", v4)]
      = { name := jsonStr (some v1), share_id := jsonInt (some v2),
          email := jsonStr (some v3), phone := jsonStr (some v4) } := rfl
  rw [hb]
  refine ⟨by simp [patch_member, hv, hm, hb], ?_, ?_, ?_, ?_, ?_, ?_, ?_, ?_⟩
  · intro habs
    have hx := parseField_eq_null_of_absent_or_null p ⟨"name", false, .tStr⟩ rfl rfl habs
    have h5 : v1 = JsonVal.null := Option.some.inj (h1.symm.trans hx)
    subst h5
    simp [apply_member_patch_name, jsonStr]
  · intro habs
    have hx := parseField_eq_null_of_absent_or_null p ⟨"share_id", false, .tInt⟩ rfl rfl habs
    have h5 : v2 = JsonVal.null := Option.some.inj (h2.symm.trans hx)
    subst h5
    simp [apply_member_patch_share_id, jsonInt]
  · intro habs
    have hx := parseField_eq_null_of_absent_or_null p ⟨"email", false, .tStr⟩ rfl rfl habs
    have h5 : v3 = JsonVal.null := Option.some.inj (h3.symm.trans hx)
    subst h5
    simp [apply_member_patch_email, jsonStr]
  · intro habs
    have hx := parseField_eq_null_of_absent_or_null p ⟨"phone", false, .tStr⟩ rfl rfl habs
    have h5 : v4 = JsonVal.null := Option.some.inj (h4.symm.trans hx)
    subst h5
    simp [apply_member_patch_phone, jsonStr]
  · intro v hlv
    have hx := parseField_eq_of_lookup p ⟨"name", false, .tStr⟩ (.str v) hlv rfl
    have h5 : v1 = JsonVal.str v := Option.some.inj (h1.symm.trans hx)
    subst h5
    simp [apply_member_patch_name, jsonStr]
  · intro n hlv
    have hx := parseField_eq_of_lookup p ⟨"share_id", false, .tInt⟩ (.int n) hlv rfl
    have h5 : v2 = JsonVal.int n := Option.some.inj (h2.symm.trans hx)
    subst h5
    simp [apply_member_patch_share_id, jsonInt]
  · intro v hlv
    have hx := parseField_eq_of_lookup p ⟨"email", false, .tStr⟩ (.str v) hlv rfl
    have h5 : v3 = JsonVal.str v := Option.some.inj (h3.symm.trans hx)
    subst h5
    simp [apply_member_patch_email, jsonStr]
  · intro v hlv
    have hx := parseField_eq_of_lookup p ⟨"phone", false, .tStr⟩ (.str v) hlv rfl
    have h5 : v4 = JsonVal.str v := Option.some.inj (h4.symm.trans hx)
    subst h5
    simp [apply_member_patch_phone, jsonStr]

theorem C6_patch_member_skips_nulls_witness :
    (apply_member_patch
        { id := 1, name := "Ann", email := some "ann@x.org", share_id := 2 }
        (toMemberPatchBody
          [("name", JsonVal.null), ("share_id", JsonVal.null),
           ("email", JsonVal.null), ("phone", JsonVal.str "123")])).email
      = some "ann@x.org"
    ∧ (apply_member_patch
        { id := 1, name := "Ann", email := some "ann@x.org", share_id := 2 }
        (toMemberPatchBody
          [("name", JsonVal.null), ("share_id", JsonVal.null),
           ("email", JsonVal.null), ("phone", JsonVal.str "123")])).phone
      = some "123" :=
  ⟨(C6_patch_member_skips_nulls
      { members := [{ id := 1, name := "Ann", email := some "ann@x.org", share_id := 2 }] }
      1 { id := 1, name := "Ann", email := some "ann@x.org", share_id := 2 }
      [("email", JsonVal.null), ("phone", JsonVal.str "123")]
      [("name", JsonVal.null), ("share_id", JsonVal.null),
       ("email", JsonVal.null), ("phone", JsonVal.str "123")]
      (by decide) (by decide)).2.2.2.1 (Or.inr rfl),
   (C6_patch_member_skips_nulls
      { members := [{ id := 1, name := "Ann", email := some "ann@x.org", share_id := 2 }] }
      1 { id := 1, name := "Ann", email := some "ann@x.org", share_id := 2 }
      [("email", JsonVal.null), ("phone", JsonVal.str "123")]
      [("name", JsonVal.null), ("share_id", JsonVal.null),
       ("email", JsonVal.null), ("phone", JsonVal.str "123")]
      (by decide) (by decide)).2.2.2.2.2.2.2.2 "123" rfl⟩

/-- C8: PATCH /api/v1/shares/id assigns both `note` and `archived` from the
parsed body, so a field omitted from the body (parsed as `None`) is set to
null on the share rather than left unchanged; PATCH /api/v1/deposits/id
does the same for `ignore` and `is_security` — the opposite of PATCH
/api/v1/members/id, whose setattr loop skips `None` values. -/
theorem C8_patch_share_deposit_assigns_all (db : DB) (sid did : Int)
    (s : Share) (d : Deposit) (p parsed q qparsed : Payload)
    (hs : findShare db sid = some s)
    (hv : validateBody SharePatchSchema p = some parsed)
    (hd : findDeposit db did = some d)
    (hq : validateBody DepositPatchSchema q = some qparsed) :
    patch_share db sid p
      = .patched (saveShare db (apply_share_patch s (toSharePatchBody parsed)),
                  apply_share_patch s (toSharePatchBody parsed))
    ∧ (apply_share_patch s (toSharePatchBody parsed)).note
        = jsonStr (lookupField parsed "note")
    ∧ (apply_share_patch s (toSharePatchBody parsed)).archived
        = jsonBool (lookupField parsed "archived")
    ∧ (lookupField p "note" = none →
        (apply_share_patch s (toSharePatchBody parsed)).note = none)
    ∧ (lookupField p "archived" = none →
        (apply_share_patch s (toSharePatchBody parsed)).archived = none)
    ∧ patch_deposit db did q
      = .patched (saveDeposit db (apply_deposit_patch d (toDepositPatchBody qparsed)),
                  apply_deposit_patch d (toDepositPatchBody qparsed))
    ∧ (lookupField q "ignore" = none →
        (apply_deposit_patch d (toDepositPatchBody qparsed)).ignore = none)
    ∧ (lookupField q "is_security" = none →
        (apply_deposit_patch d (toDepositPatchBody qparsed)).is_security = none)
    ∧ (∀ (m : Member) (b : MemberPatchBody), b.email = none →
        (apply_member_patch m b).email = m.email) := by
  have hpf : parseFields p [⟨"note", false, .tStr⟩, ⟨"archived", false, .tBool⟩]
      = some parsed := validateBody_some_inv _ _ _ hv
  obtain ⟨w1, u1, g1, hpf1, go1⟩ := parseFields_cons_inv _ _ _ _ hpf
  obtain ⟨w2, u2, g2, hpf2, go2⟩ := parseFields_cons_inv _ _ _ _ hpf1
  have hu2 := parseFields_nil_inv _ _ hpf2
  subst hu2 go2 go1
  have hqf : parseFields q [⟨"ignore", false, .tBool⟩, ⟨"is_security", false, .tBool⟩]
      = some qparsed := validateBody_some_inv _ _ _ hq
  obtain ⟨x1, y1, k1, hqf1, ko1⟩ := parseFields_cons_inv _ _ _ _ hqf
  obtain ⟨x2, y2, k2, hqf2, ko2⟩ := parseFields_cons_inv _ _ _ _ hqf1
  have hy2 := parseFields_nil_inv _ _ hqf2
  subst hy2 ko2 ko1
  refine ⟨by simp [patch_share, hv, hs], rfl, rfl, ?_, ?_,
          by simp [patch_deposit, hq, hd], ?_, ?_, ?_⟩
  · intro habs
    have hx := parseField_eq_null_of_absent_or_null p ⟨"note", false, .tStr⟩ rfl rfl
      (Or.inl habs)
    have h5 : w1 = JsonVal.null := Option.some.inj (g1.symm.trans hx)
    subst h5
    rfl
  · intro habs
    have hx := parseField_eq_null_of_absent_or_null p ⟨"archived", false, .tBool⟩ rfl rfl
      (Or.inl habs)
    have h5 : w2 = JsonVal.null := Option.some.inj (g2.symm.trans hx)
    subst h5
    rfl
  · intro habs
    have hx := parseField_eq_null_of_absent_or_null q ⟨"ignore", false, .tBool⟩ rfl rfl
      (Or.inl habs)
    have h5 : x1 = JsonVal.null := Option.some.inj (k1.symm.trans hx)
    subst h5
    rfl
  · intro habs
    have hx := parseField_eq_null_of_absent_or_null q ⟨"is_security", false, .tBool⟩ rfl rfl
      (Or.inl habs)
    have h5 : x2 = JsonVal.null := Option.some.inj (k2.symm.trans hx)
    subst h5
    rfl
  · intro m b hb
    rw [apply_member_patch_email, hb]

theorem C8_patch_share_deposit_assigns_all_witness :
    (apply_share_patch { id := 3, note := some "old note" }
        (toSharePatchBody [("note", JsonVal.null), ("archived", JsonVal.null)])).note
      = none
    ∧ (apply_deposit_patch { id := 4, ignore := some true }
        (toDepositPatchBody
          [("ignore", JsonVal.null), ("is_security", JsonVal.null)])).ignore
      = none :=
  ⟨(C8_patch_share_deposit_assigns_all
      { shares := [{ id := 3, note := some "old note" }],
        deposits := [{ id := 4, ignore := some true }] }
      3 4 { id := 3, note := some "old note" } { id := 4, ignore := some true }
      [] [("note", JsonVal.null), ("archived", JsonVal.null)]
      [] [("ignore", JsonVal.null), ("is_security", JsonVal.null)]
      (by decide) (by decide) (by decide) (by decide)).2.2.2.1 rfl,
   (C8_patch_share_deposit_assigns_all
      { shares := [{ id := 3, note := some "old note" }],
        deposits := [{ id := 4, ignore := some true }] }
      3 4 { id := 3, note := some "old note" } { id := 4, ignore := some true }
      [] [("note", JsonVal.null), ("archived", JsonVal.null)]
      [] [("ignore", JsonVal.null), ("is_security", JsonVal.null)]
      (by decide) (by decide) (by decide) (by decide)).2.2.2.2.2.2.1 rfl⟩

theorem find?_map_update (l : List Share) (i : Int) (f : Share → Share)
    (hf : ∀ t, t.id = i → (f t).id = i) :
    (l.map (fun t => if t.id == i then f t else t)).find? (fun t => t.id == i)
      = (l.find? (fun t => t.id == i)).map f := by
  induction l with
  | nil => rfl
  | cons a l ih =>
      rcases h : a.id == i with _ | _
      · have ha : (if (a.id == i) = true then f a else a) = a := by
          rw [h]
          simp
        simp only [List.map_cons]
        rw [ha, List.find?_cons, List.find?_cons, h]
        exact ih
      · have hfa : ((f a).id == i) = true :=
          beq_iff_eq.mpr (hf a (beq_iff_eq.mp h))
        have ha : (if (a.id == i) = true then f a else a) = f a := by
          rw [h]
          simp
        simp only [List.map_cons]
        rw [ha, List.find?_cons, List.find?_cons, hfa, h]
        rfl

theorem findShare_updateShare (db : DB) (i : Int) (f : Share → Share)
    (hf : ∀ t, t.id = i → (f t).id = i) :
    findShare (updateShare db i f) i = (findShare db i).map f :=
  find?_map_update db.shares i f hf

theorem find?_map_update_ne (l : List Share) (j : Int) (f : Share → Share) (i : Int)
    (hf : ∀ t, t.id = j → (f t).id = j) (hij : j ≠ i) :
    (l.map (fun t => if t.id == j then f t else t)).find? (fun t => t.id == i)
      = l.find? (fun t => t.id == i) := by
  induction l with
  | nil => rfl
  | cons a l ih =>
      rcases h : a.id == j with _ | _
      · have ha : (if (a.id == j) = true then f a else a) = a := by
          rw [h]
          simp
        simp only [List.map_cons]
        rw [ha, List.find?_cons, List.find?_cons, ih]
      · have ha : (if (a.id == j) = true then f a else a) = f a := by
          rw [h]
          simp
        have hfa : ((f a).id == i) = false :=
          beq_eq_false_iff_ne.mpr (by rw [hf a (beq_iff_eq.mp h)]; exact hij)
        have hai : (a.id == i) = false :=
          beq_eq_false_iff_ne.mpr (by rw [beq_iff_eq.mp h]; exact hij)
        simp only [List.map_cons]
        rw [ha, List.find?_cons, List.find?_cons, hfa, hai, ih]

theorem findShare_updateShare_ne (db : DB) (j : Int) (f : Share → Share) (i : Int)
    (hf : ∀ t, t.id = j → (f t).id = j) (hij : j ≠ i) :
    findShare (updateShare db j f) i = findShare db i :=
  find?_map_update_ne db.shares j f i hf hij

theorem foldl_step_find_ne (step : DB → BetsFormEntry → DB) (L : List BetsFormEntry)
    (db : DB) (i : Int)
    (hne : ∀ d e, e ∈ L → e.sid ≠ i → findShare (step d e) i = findShare d i)
    (hi : ∀ e ∈ L, e.sid ≠ i) :
    findShare (L.foldl step db) i = findShare db i := by
  induction L generalizing db with
  | nil => rfl
  | cons a L ih =>
      rw [List.foldl_cons,
          ih (step db a)
            (fun d e he hei => hne d e (List.mem_cons_of_mem a he) hei)
            (fun e he => hi e (List.mem_cons_of_mem a he)),
          hne db a (List.mem_cons_self a L) (hi a (List.mem_cons_self a L))]

theorem foldl_step_find_self (step : DB → BetsFormEntry → DB)
    (ψ : BetsFormEntry → Option Share → Option Share) (L : List BetsFormEntry)
    (db : DB) (e : BetsFormEntry)
    (hself : ∀ d x, x ∈ L → findShare (step d x) x.sid = ψ x (findShare d x.sid))
    (hne : ∀ d x i, x ∈ L → x.sid ≠ i → findShare (step d x) i = findShare d i)
    (hdist : L.Pairwise (fun a b => a.sid ≠ b.sid))
    (he : e ∈ L) :
    findShare (L.foldl step db) e.sid = ψ e (findShare db e.sid) := by
  induction L generalizing db with
  | nil => cases he
  | cons a L ih =>
      rw [List.foldl_cons]
      rcases List.mem_cons.mp he with rfl | he'
      · rw [foldl_step_find_ne step L (step db e) e.sid
              (fun d x hx hxe => hne d x e.sid (List.mem_cons_of_mem e hx) hxe)
              (fun x hx => (List.rel_of_pairwise_cons hdist hx).symm),
            hself db e (List.mem_cons_self e L)]
      · rw [ih (step db a)
              (fun d x hx => hself d x (List.mem_cons_of_mem a hx))
              (fun d x i hx => hne d x i (List.mem_cons_of_mem a hx))
              (List.Pairwise.of_cons hdist) he',
            hne db a e.sid (List.mem_cons_self a L)
              (List.rel_of_pairwise_cons hdist he')]

theorem strStartsWith_value_key_value (x : String) :
    strStartsWith ("value-" ++ x) "value" = true := rfl

theorem strStartsWith_station_key_value (x : String) :
    strStartsWith ("station-" ++ x) "value" = false := rfl

theorem strStartsWith_month_key_value (x : String) :
    strStartsWith ("month-" ++ x) "value" = false := rfl

theorem strStartsWith_value_key_station (x : String) :
    strStartsWith ("value-" ++ x) "station" = false := rfl

theorem strStartsWith_station_key_station (x : String) :
    strStartsWith ("station-" ++ x) "station" = true := rfl

theorem strStartsWith_month_key_station (x : String) :
    strStartsWith ("month-" ++ x) "station" = false := rfl

theorem strStartsWith_value_key_month (x : String) :
    strStartsWith ("value-" ++ x) "month" = false := rfl

theorem strStartsWith_station_key_month (x : String) :
    strStartsWith ("station-" ++ x) "month" = false := rfl

theorem strStartsWith_month_key_month (x : String) :
    strStartsWith ("month-" ++ x) "month" = true := rfl

theorem entriesForm_keys_value (L : List BetsFormEntry) :
    ((entriesForm L).map (fun kv => kv.1)).filter (fun k => strStartsWith k "value")
      = L.map (fun e => "value-" ++ e.sidStr) := by
  induction L with
  | nil => rfl
  | cons e L ih =>
      have hcons : entriesForm (e :: L) = entryForm e ++ entriesForm L := rfl
      rw [hcons, List.map_append, List.filter_append, ih]
      simp [entryForm, strStartsWith_value_key_value, strStartsWith_station_key_value,
            strStartsWith_month_key_value]

theorem entriesForm_keys_station (L : List BetsFormEntry) :
    ((entriesForm L).map (fun kv => kv.1)).filter (fun k => strStartsWith k "station")
      = L.map (fun e => "station-" ++ e.sidStr) := by
  induction L with
  | nil => rfl
  | cons e L ih =>
      have hcons : entriesForm (e :: L) = entryForm e ++ entriesForm L := rfl
      rw [hcons, List.map_append, List.filter_append, ih]
      simp [entryForm, strStartsWith_value_key_station, strStartsWith_station_key_station,
            strStartsWith_month_key_station]

theorem entriesForm_keys_month (L : List BetsFormEntry) :
    ((entriesForm L).map (fun kv => kv.1)).filter (fun k => strStartsWith k "month")
      = L.map (fun e => "month-" ++ e.sidStr) := by
  induction L with
  | nil => rfl
  | cons e L ih =>
      have hcons : entriesForm (e :: L) = entryForm e ++ entriesForm L := rfl
      rw [hcons, List.map_append, List.filter_append, ih]
      simp [entryForm, strStartsWith_value_key_month, strStartsWith_station_key_month,
            strStartsWith_month_key_month]

theorem string_append_beq_false (s a b : String) (h : a ≠ b) :
    ((s ++ a) == (s ++ b)) = false := by
  rw [beq_eq_false_iff_ne]
  intro hab
  apply h
  apply String.ext
  have hdata := congrArg String.data hab
  rw [show (s ++ a).data = s.data ++ a.data from rfl,
      show (s ++ b).data = s.data ++ b.data from rfl] at hdata
  exact List.append_cancel_left hdata

theorem formGet_value_key (L : List BetsFormEntry) (e : BetsFormEntry)
    (he : e ∈ L) (hds : L.Pairwise (fun a b => a.sidStr ≠ b.sidStr)) :
    formGet (entriesForm L) ("value-" ++ e.sidStr) = e.value := by
  induction L with
  | nil => cases he
  | cons a L ih =>
      have hcons : entriesForm (a :: L) = entryForm a ++ entriesForm L := rfl
      unfold formGet
      rw [hcons, List.find?_append]
      rcases List.mem_cons.mp he with rfl | he'
      · rw [show (entryForm e).find? (fun kv => kv.1 == ("value-" ++ e.sidStr))
              = some ("value-" ++ e.sidStr, e.value) from by
            simp [entryForm, List.find?, beq_self_eq_true]]
        rfl
      · rw [show (entryForm a).find? (fun kv => kv.1 == ("value-" ++ e.sidStr))
              = none from by
            simp [entryForm, List.find?,
              string_append_beq_false "value-" a.sidStr e.sidStr
                (List.rel_of_pairwise_cons hds he'),
              show (("station-" ++ a.sidStr) == ("value-" ++ e.sidStr)) = false from rfl,
              show (("month-" ++ a.sidStr) == ("value-" ++ e.sidStr)) = false from rfl]]
        exact ih he' (List.Pairwise.of_cons hds)

theorem formGet_station_key (L : List BetsFormEntry) (e : BetsFormEntry)
    (he : e ∈ L) (hds : L.Pairwise (fun a b => a.sidStr ≠ b.sidStr)) :
    formGet (entriesForm L) ("station-" ++ e.sidStr) = e.station := by
  induction L with
  | nil => cases he
  | cons a L ih =>
      have hcons : entriesForm (a :: L) = entryForm a ++ entriesForm L := rfl
      unfold formGet
      rw [hcons, List.find?_append]
      rcases List.mem_cons.mp he with rfl | he'
      · rw [show (entryForm e).find? (fun kv => kv.1 == ("station-" ++ e.sidStr))
              = some ("station-" ++ e.sidStr, e.station) from by
            simp [entryForm, List.find?, beq_self_eq_true,
              show (("value-" ++ e.sidStr) == ("station-" ++ e.sidStr)) = false from rfl]]
        rfl
      · rw [show (entryForm a).find? (fun kv => kv.1 == ("station-" ++ e.sidStr))
              = none from by
            simp [entryForm, List.find?,
              string_append_beq_false "station-" a.sidStr e.sidStr
                (List.rel_of_pairwise_cons hds he'),
              show (("value-" ++ a.sidStr) == ("station-" ++ e.sidStr)) = false from rfl,
              show (("month-" ++ a.sidStr) == ("station-" ++ e.sidStr)) = false from rfl]]
        exact ih he' (List.Pairwise.of_cons hds)

theorem formGet_month_key (L : List BetsFormEntry) (e : BetsFormEntry)
    (he : e ∈ L) (hds : L.Pairwise (fun a b => a.sidStr ≠ b.sidStr)) :
    formGet (entriesForm L) ("month-" ++ e.sidStr) = e.month := by
  induction L with
  | nil => cases he
  | cons a L ih =>
      have hcons : entriesForm (a :: L) = entryForm a ++ entriesForm L := rfl
      unfold formGet
      rw [hcons, List.find?_append]
      rcases List.mem_cons.mp he with rfl | he'
      · rw [show (entryForm e).find? (fun kv => kv.1 == ("month-" ++ e.sidStr))
              = some ("month-" ++ e.sidStr, e.month) from by
            simp [entryForm, List.find?, beq_self_eq_true,
              show (("value-" ++ e.sidStr) == ("month-" ++ e.sidStr)) = false from rfl,
              show (("station-" ++ e.sidStr) == ("month-" ++ e.sidStr)) = false from rfl]]
        rfl
      · rw [show (entryForm a).find? (fun kv => kv.1 == ("month-" ++ e.sidStr))
              = none from by
            simp [entryForm, List.find?,
              string_append_beq_false "month-" a.sidStr e.sidStr
                (List.rel_of_pairwise_cons hds he'),
              show (("value-" ++ a.sidStr) == ("month-" ++ e.sidStr)) = false from rfl,
              show (("station-" ++ a.sidStr) == ("month-" ++ e.sidStr)) = false from rfl]]
        exact ih he' (List.Pairwise.of_cons hds)

theorem takeWhile_no_dash (l : List Char)
    (h : l.all (fun c => !(c == '-')) = true) :
    l.takeWhile (fun c => !(c == '-')) = l := by
  induction l with
  | nil => rfl
  | cons c l ih =>
      rw [List.all_cons, Bool.and_eq_true] at h
      rw [List.takeWhile_cons, if_pos h.1, ih h.2]

theorem keyShareId_value_key (x : String) (i : Int)
    (hx : x.data.all (fun c => !(c == '-')) = true)
    (hp : pyToInt x = some i) :
    keyShareId ("value-" ++ x) = some i := by
  unfold keyShareId
  rw [show secondDashComponent ("value-" ++ x)
        = some (String.mk (x.data.takeWhile (fun c => !(c == '-')))) from rfl,
      takeWhile_no_dash x.data hx,
      show String.mk x.data = x from rfl]
  exact hp

theorem keyShareId_station_key (x : String) (i : Int)
    (hx : x.data.all (fun c => !(c == '-')) = true)
    (hp : pyToInt x = some i) :
    keyShareId ("station-" ++ x) = some i := by
  unfold keyShareId
  rw [show secondDashComponent ("station-" ++ x)
        = some (String.mk (x.data.takeWhile (fun c => !(c == '-')))) from rfl,
      takeWhile_no_dash x.data hx,
      show String.mk x.data = x from rfl]
  exact hp

theorem keyShareId_month_key (x : String) (i : Int)
    (hx : x.data.all (fun c => !(c == '-')) = true)
    (hp : pyToInt x = some i) :
    keyShareId ("month-" ++ x) = some i := by
  unfold keyShareId
  rw [show secondDashComponent ("month-" ++ x)
        = some (String.mk (x.data.takeWhile (fun c => !(c == '-')))) from rfl,
      takeWhile_no_dash x.data hx,
      show String.mk x.data = x from rfl]
  exact hp

theorem option_some_bind {α β : Type} (a : α) (f : α → Option β) :
    (some a : Option α) >>= f = f a := rfl

theorem value_fold_eval (form : List (String × String)) (L : List BetsFormEntry) (db : DB)
    (hk : ∀ e ∈ L, keyShareId ("value-" ++ e.sidStr) = some e.sid)
    (hg : ∀ e ∈ L, formGet form ("value-" ++ e.sidStr) = e.value) :
    (L.map (fun e => "value-" ++ e.sidStr)).foldlM (fun d k => do
        let sid ← keyShareId k
        pure (set_value_for_id (formGet form k) sid d)) db
      = some (L.foldl applyValueField db) := by
  induction L generalizing db with
  | nil => rfl
  | cons e L ih =>
      rw [List.map_cons, List.foldl_cons]
      simp only [List.foldlM]
      rw [hk e (List.mem_cons_self e L), hg e (List.mem_cons_self e L)]
      simp only [bind, Option.bind, pure]
      exact ih (applyValueField db e)
        (fun x hx => hk x (List.mem_cons_of_mem e hx))
        (fun x hx => hg x (List.mem_cons_of_mem e hx))

theorem station_fold_eval (form : List (String × String)) (L : List BetsFormEntry) (db : DB)
    (hk : ∀ e ∈ L, keyShareId ("station-" ++ e.sidStr) = some e.sid)
    (hg : ∀ e ∈ L, formGet form ("station-" ++ e.sidStr) = e.station)
    (hp : ∀ e ∈ L, e.station ≠ "None" → pyToInt e.station = some e.stationNum) :
    (L.map (fun e => "station-" ++ e.sidStr)).foldlM (fun d k => do
        let station_id := formGet form k
        if station_id ≠ "None" then
          let sid ← keyShareId k
          let stn ← pyToInt station_id
          pure (set_station_for_id stn sid d)
        else
          pure d) db
      = some (L.foldl applyStationField db) := by
  induction L generalizing db with
  | nil => rfl
  | cons e L ih =>
      rw [List.map_cons, List.foldl_cons]
      simp only [List.foldlM]
      rw [hg e (List.mem_cons_self e L)]
      by_cases hN : e.station = "None"
      · rw [if_neg (fun hc => hc hN)]
        simp only [bind, Option.bind, pure]
        rw [show applyStationField db e = db from by unfold applyStationField; rw [if_pos hN]]
        exact ih db
          (fun x hx => hk x (List.mem_cons_of_mem e hx))
          (fun x hx => hg x (List.mem_cons_of_mem e hx))
          (fun x hx => hp x (List.mem_cons_of_mem e hx))
      · rw [if_pos hN, hk e (List.mem_cons_self e L), hp e (List.mem_cons_self e L) hN]
        simp only [bind, Option.bind, pure]
        rw [show set_station_for_id e.stationNum e.sid db = applyStationField db e from by
              unfold applyStationField
              rw [if_neg hN]]
        exact ih (applyStationField db e)
          (fun x hx => hk x (List.mem_cons_of_mem e hx))
          (fun x hx => hg x (List.mem_cons_of_mem e hx))
          (fun x hx => hp x (List.mem_cons_of_mem e hx))

theorem month_fold_eval (form : List (String × String)) (L : List BetsFormEntry) (db : DB)
    (hk : ∀ e ∈ L, keyShareId ("month-" ++ e.sidStr) = some e.sid)
    (hg : ∀ e ∈ L, formGet form ("month-" ++ e.sidStr) = e.month)
    (hp : ∀ e ∈ L, pyToInt e.month = some e.monthNum)
    (hex : ∀ e ∈ L, (findShare db e.sid).isSome = true)
    (hdist : L.Pairwise (fun a b => a.sid ≠ b.sid)) :
    ∃ d2, (L.map (fun e => "month-" ++ e.sidStr)).foldlM (fun d k => do
        let month ← pyToInt (formGet form k)
        let sid ← keyShareId k
        let share ← findShare d sid
        pure (saveShare d { share with start_date := some ⟨2017, month, 1⟩ })) db
      = some d2
      ∧ (∀ e ∈ L, findShare d2 e.sid = (findShare db e.sid).map
          (fun t => { t with start_date := some ⟨2017, e.monthNum, 1⟩ }))
      ∧ (∀ i, (∀ e ∈ L, e.sid ≠ i) → findShare d2 i = findShare db i) := by
  induction L generalizing db with
  | nil =>
      exact ⟨db, rfl, fun e he => absurd he (List.not_mem_nil e), fun i _ => rfl⟩
  | cons e L ih =>
      obtain ⟨s, hsome⟩ := Option.isSome_iff_exists.mp (hex e (List.mem_cons_self e L))
      have hsid : s.id = e.sid := by
        have h := List.find?_some hsome
        simpa using h
      have hXid : ∀ t : Share, t.id = e.sid →
          ((fun _ => ({ s with start_date := some ⟨2017, e.monthNum, 1⟩ } : Share)) t).id
            = e.sid := fun t ht => hsid
      obtain ⟨d2, hf2, hp2, hr2⟩ := ih
        (updateShare db e.sid (fun _ => { s with start_date := some ⟨2017, e.monthNum, 1⟩ }))
        (fun x hx => hk x (List.mem_cons_of_mem e hx))
        (fun x hx => hg x (List.mem_cons_of_mem e hx))
        (fun x hx => hp x (List.mem_cons_of_mem e hx))
        (fun x hx => by
          rw [findShare_updateShare_ne db e.sid _ x.sid hXid
                (List.rel_of_pairwise_cons hdist hx)]
          exact hex x (List.mem_cons_of_mem e hx))
        (List.Pairwise.of_cons hdist)
      refine ⟨d2, ?_, ?_, ?_⟩
      · rw [List.map_cons]
        simp only [List.foldlM]
        rw [hg e (List.mem_cons_self e L), hp e (List.mem_cons_self e L)]
        simp only [bind, Option.bind]
        rw [hk e (List.mem_cons_self e L)]
        simp only [bind, Option.bind]
        rw [hsome]
        simp only [bind, Option.bind, pure]
        rw [show saveShare db { s with start_date := some ⟨2017, e.monthNum, 1⟩ }
              = updateShare db e.sid
                  (fun _ => { s with start_date := some ⟨2017, e.monthNum, 1⟩ }) from by
              unfold saveShare
              rw [show ({ s with start_date := some ⟨2017, e.monthNum, 1⟩ } : Share).id
                    = e.sid from hsid]]
        exact hf2
      · intro x hx
        rcases List.mem_cons.mp hx with rfl | hx'
        · rw [hr2 x.sid (fun y hy => List.rel_of_pairwise_cons hdist hy |>.symm |> (fun h => h)),
              findShare_updateShare db x.sid _ hXid, hsome]
          rfl
        · rw [hp2 x hx',
              findShare_updateShare_ne db e.sid _ x.sid hXid
                (List.rel_of_pairwise_cons hdist hx')]
      · intro i hi
        rw [hr2 i (fun x hx => hi x (List.mem_cons_of_mem e hx)),
            findShare_updateShare_ne db e.sid _ i hXid (hi e (List.mem_cons_self e L))]

/-- C7: on a POST to /bets, for every submitted collection of form field
families keyed by share ids — for each listed share a `value-<id>` field, a
`station-<id>` field and a `month-<id>` field, for arbitrarily many shares
and arbitrary ids — the route updates each referenced share's pledge value
to its submitted value, updates its station unless the submitted station
value is the literal string "None" (in which case the station is left
unchanged), and sets its start date to the first day of the given month in
the fixed year 2017; every share not referenced by the form is left
untouched, and the route redirects back to /bets. -/
theorem C7_bets_overview_post_families (db : DB) (L : List BetsFormEntry)
    (hok : ∀ e ∈ L, entryOk db e)
    (hdist : L.Pairwise (fun a b => a.sidStr ≠ b.sidStr ∧ a.sid ≠ b.sid)) :
    ∃ db2, bets_overview_post (entriesForm L) db = some (db2, "/bets")
      ∧ (∀ e ∈ L, ∃ s, findShare db e.sid = some s
           ∧ findShare db2 e.sid = some (entryUpdate e s))
      ∧ (∀ i, (∀ e ∈ L, e.sid ≠ i) → findShare db2 i = findShare db i) := by
  have hdss : L.Pairwise (fun a b => a.sidStr ≠ b.sidStr) :=
    hdist.imp (fun h => h.1)
  have hdsi : L.Pairwise (fun a b => a.sid ≠ b.sid) :=
    hdist.imp (fun h => h.2)
  have hkv : ∀ e ∈ L, keyShareId ("value-" ++ e.sidStr) = some e.sid :=
    fun e he => keyShareId_value_key e.sidStr e.sid (hok e he).2.1 (hok e he).1
  have hks : ∀ e ∈ L, keyShareId ("station-" ++ e.sidStr) = some e.sid :=
    fun e he => keyShareId_station_key e.sidStr e.sid (hok e he).2.1 (hok e he).1
  have hkm : ∀ e ∈ L, keyShareId ("month-" ++ e.sidStr) = some e.sid :=
    fun e he => keyShareId_month_key e.sidStr e.sid (hok e he).2.1 (hok e he).1
  have hgv : ∀ e ∈ L, formGet (entriesForm L) ("value-" ++ e.sidStr) = e.value :=
    fun e he => formGet_value_key L e he hdss
  have hgs : ∀ e ∈ L, formGet (entriesForm L) ("station-" ++ e.sidStr) = e.station :=
    fun e he => formGet_station_key L e he hdss
  have hgm : ∀ e ∈ L, formGet (entriesForm L) ("month-" ++ e.sidStr) = e.month :=
    fun e he => formGet_month_key L e he hdss
  have hmp : ∀ e ∈ L, pyToInt e.month = some e.monthNum :=
    fun e he => (hok e he).2.2.1
  have hsp : ∀ e ∈ L, e.station ≠ "None" → pyToInt e.station = some e.stationNum :=
    fun e he => (hok e he).2.2.2.1
  have hex : ∀ e ∈ L, (findShare db e.sid).isSome = true :=
    fun e he => (hok e he).2.2.2.2
  -- pointwise facts about the value pass
  have hVself : ∀ d (x : BetsFormEntry), x ∈ L →
      findShare (applyValueField d x) x.sid
        = (findShare d x.sid).map (fun t => { t with bet_value := some x.value }) :=
    fun d x hx => by
      unfold applyValueField set_value_for_id
      exact findShare_updateShare d x.sid _ (fun t ht => ht)
  have hVne : ∀ d (x : BetsFormEntry) i, x ∈ L → x.sid ≠ i →
      findShare (applyValueField d x) i = findShare d i :=
    fun d x i hx hxi => by
      unfold applyValueField set_value_for_id
      exact findShare_updateShare_ne d x.sid _ i (fun t ht => ht) hxi
  have hVp : ∀ e ∈ L, findShare (L.foldl applyValueField db) e.sid
      = (findShare db e.sid).map (fun t => { t with bet_value := some e.value }) :=
    fun e he => foldl_step_find_self applyValueField
      (fun x o => o.map (fun t => { t with bet_value := some x.value })) L db e
      hVself hVne hdsi he
  have hVf : ∀ i, (∀ e ∈ L, e.sid ≠ i) →
      findShare (L.foldl applyValueField db) i = findShare db i :=
    fun i hi => foldl_step_find_ne applyValueField L db i
      (fun d x hx hxi => hVne d x i hx hxi) hi
  -- pointwise facts about the station pass
  have hSself : ∀ d (x : BetsFormEntry), x ∈ L →
      findShare (applyStationField d x) x.sid
        = (if x.station = "None" then findShare d x.sid
           else (findShare d x.sid).map
             (fun t => { t with station_id := some x.stationNum })) :=
    fun d x hx => by
      unfold applyStationField
      by_cases hN : x.station = "None"
      · rw [if_pos hN, if_pos hN]
      · rw [if_neg hN, if_neg hN]
        unfold set_station_for_id
        exact findShare_updateShare d x.sid _ (fun t ht => ht)
  have hSne : ∀ d (x : BetsFormEntry) i, x ∈ L → x.sid ≠ i →
      findShare (applyStationField d x) i = findShare d i :=
    fun d x i hx hxi => by
      unfold applyStationField
      by_cases hN : x.station = "None"
      · rw [if_pos hN]
      · rw [if_neg hN]
        unfold set_station_for_id
        exact findShare_updateShare_ne d x.sid _ i (fun t ht => ht) hxi
  have hSp : ∀ e ∈ L,
      findShare (L.foldl applyStationField (L.foldl applyValueField db)) e.sid
        = (if e.station = "None"
           then findShare (L.foldl applyValueField db) e.sid
           else (findShare (L.foldl applyValueField db) e.sid).map
             (fun t => { t with station_id := some e.stationNum })) :=
    fun e he => foldl_step_find_self applyStationField
      (fun x o => if x.station = "None" then o
                  else o.map (fun t => { t with station_id := some x.stationNum }))
      L (L.foldl applyValueField db) e hSself hSne hdsi he
  have hSf : ∀ i, (∀ e ∈ L, e.sid ≠ i) →
      findShare (L.foldl applyStationField (L.foldl applyValueField db)) i
        = findShare (L.foldl applyValueField db) i :=
    fun i hi => foldl_step_find_ne applyStationField L (L.foldl applyValueField db) i
      (fun d x hx hxi => hSne d x i hx hxi) hi
  -- existence survives the first two passes
  have hexS : ∀ e ∈ L,
      (findShare (L.foldl applyStationField (L.foldl applyValueField db)) e.sid).isSome
        = true := by
    intro e he
    obtain ⟨s, hsome⟩ := Option.isSome_iff_exists.mp (hex e he)
    rw [hSp e he, hVp e he, hsome]
    by_cases hN : e.station = "None"
    · rw [if_pos hN]
      rfl
    · rw [if_neg hN]
      rfl
  obtain ⟨dM, hMf, hMp, hMfr⟩ := month_fold_eval (entriesForm L) L
    (L.foldl applyStationField (L.foldl applyValueField db)) hkm hgm hmp hexS hdsi
  refine ⟨dM, ?_, ?_, ?_⟩
  · simp only [bets_overview_post]
    rw [entriesForm_keys_value, entriesForm_keys_station, entriesForm_keys_month,
        value_fold_eval (entriesForm L) L db hkv hgv]
    simp only [option_some_bind]
    rw [station_fold_eval (entriesForm L) L (L.foldl applyValueField db) hks hgs hsp]
    simp only [option_some_bind]
    rw [hMf]
    simp only [option_some_bind]
    rfl
  · intro e he
    obtain ⟨s, hsome⟩ := Option.isSome_iff_exists.mp (hex e he)
    refine ⟨s, hsome, ?_⟩
    rw [hMp e he, hSp e he, hVp e he, hsome]
    by_cases hN : e.station = "None"
    · rw [if_pos hN]
      simp only [Option.map_some']
      unfold entryUpdate
      rw [if_pos hN]
    · rw [if_neg hN]
      simp only [Option.map_some']
      unfold entryUpdate
      rw [if_neg hN]
  · intro i hi
    rw [hMfr i hi, hSf i hi, hVf i hi]

theorem C7_bets_overview_post_families_witness :
    ∃ db2,
      bets_overview_post
          (entriesForm
            [{ sidStr := "5", sid := 5, value := "100", station := "2", stationNum := 2,
               month := "3", monthNum := 3 },
             { sidStr := "9", sid := 9, value := "80", station := "None", stationNum := 0,
               month := "11", monthNum := 11 }])
          { shares := [{ id := 5 }, { id := 9, station_id := some 7 }] }
        = some (db2, "/bets")
      ∧ (∀ e ∈ [({ sidStr := "5", sid := 5, value := "100", station := "2", stationNum := 2,
                   month := "3", monthNum := 3 } : BetsFormEntry),
                { sidStr := "9", sid := 9, value := "80", station := "None", stationNum := 0,
                  month := "11", monthNum := 11 }],
          ∃ s, findShare { shares := [{ id := 5 }, { id := 9, station_id := some 7 }] } e.sid
                 = some s
            ∧ findShare db2 e.sid = some (entryUpdate e s))
      ∧ (∀ i, (∀ e ∈ [({ sidStr := "5", sid := 5, value := "100", station := "2",
                         stationNum := 2, month := "3", monthNum := 3 } : BetsFormEntry),
                      { sidStr := "9", sid := 9, value := "80", station := "None",
                        stationNum := 0, month := "11", monthNum := 11 }], e.sid ≠ i) →
          findShare db2 i
            = findShare { shares := [{ id := 5 }, { id := 9, station_id := some 7 }] } i) :=
  C7_bets_overview_post_families
    { shares := [{ id := 5 }, { id := 9, station_id := some 7 }] }
    [{ sidStr := "5", sid := 5, value := "100", station := "2", stationNum := 2,
       month := "3", monthNum := 3 },
     { sidStr := "9", sid := 9, value := "80", station := "None", stationNum := 0,
       month := "11", monthNum := 11 }]
    (by decide) (by decide)
